import Mathlib

/-
Verification of the `elec-00` EEG preprocessing notebook
(`src/elec-00/elec-00-preprocessing-key.ipynb`).

The notebook is a linear script of calls into the external MNE library.
We embed it as a deep trace of library calls (`notebookCalls`, read off
the notebook cells in source order, with the literal arguments of each
call) together with a small-step interpreter (`execCall` / `run`) over a
state holding a heap of recording objects (so that Python aliasing of
`data_raw` / `data_filtered` / `data_ica` is represented faithfully), the
fitted ICA object, the notebook-level variables, and a model file system.

The MNE library itself is not part of the repository.  Its operations are
modelled from the spec: the numeric kernels (FIR bandpass, FastICA,
epoch extraction, correlation scoring) are abstract functions packed in a
`Lib` structure, while the documented call contracts that the spec relies
on (filtering mutates the recording in place and touches only the picked
channels, `pick_types` excludes bad channels, `apply` zeroes exactly the
excluded components and reconstructs, `save` with overwrite replaces an
existing file) are given as executable definitions.
-/

namespace NB

/-- Channel kind, as reported by the recording metadata (the input file
has Stimulus, EEG and EOG channels; MEG is included for faithfulness of
the pick flags). -/
inductive ChType where
  | meg
  | eeg
  | eog
  | stim
  deriving DecidableEq, Repr

/-- One channel of the recording: its name, its kind and its samples.
Samples are modelled as integers (the claims never depend on the numeric
content of a sample, only on which samples are transformed). -/
structure Channel where
  name : String
  chType : ChType
  data : List Int
  deriving DecidableEq, Repr

/-- Modelled from the spec: a raw multichannel recording with metadata —
the channel list and the bad-channel set (`info` with `bads`). -/
structure Raw where
  channels : List Channel
  bads : List String
  deriving DecidableEq, Repr

/-- Modelled from the spec: a fitted decomposition holds mixing and
unmixing coefficients (rows of `unmixing` are components). -/
structure Fit where
  unmixing : List (List Int)
  mixing : List (List Int)
  deriving DecidableEq, Repr

/-- Modelled from the spec: the ICA transform object — construction
parameters, the optional fit result (with the channel indices it was
fitted on), and the explicit list of components marked for exclusion. -/
structure Ica where
  n_components : Nat
  method : String
  random_state : Option Nat
  fitted : Option (Fit × List Nat)
  exclude : List Nat
  deriving DecidableEq, Repr

/-- An exact decimal literal of the notebook, written as numerator over
denominator: `0.5` is `⟨5, 10⟩`, `40` is `⟨40, 1⟩`, `2e-4` is
`⟨2, 10000⟩`.  (Machine floats never flow into any decision made by the
notebook; the literals are only passed through to the library, so an
exact representation is faithful.) -/
structure QLit where
  num : Nat
  den : Nat
  deriving DecidableEq, Repr

/-- Modelled from the spec: the numeric kernels of the external library,
abstract and fallible.  `fastica` takes the component count, the seed,
the decimation factor and the picked rows; `create_eog_epochs` takes the
reference channel name, the rejection threshold and the picked rows;
`find_bads_eog` returns artifact component indices and scores. -/
structure Lib where
  bandpass : QLit → QLit → List Int → Except String (List Int)
  fastica : Nat → Nat → Nat → List (List Int) → Except String Fit
  create_eog_epochs : String → QLit → List (List Int) → Except String (List (List Int))
  find_bads_eog : Fit → List (List Int) → Except String (List Nat × List Int)

/-- Does a channel of this kind pass the given pick flags? -/
def typeSelected (meg eeg eog stim : Bool) : ChType → Bool
  | .meg => meg
  | .eeg => eeg
  | .eog => eog
  | .stim => stim

/-- Modelled from the spec: `mne.pick_types` — indices of the channels
whose kind is selected by the flags, excluding channels listed in
`info.bads` (the default `exclude=bads` of the library). -/
def pick_types (r : Raw) (meg eeg eog stim : Bool) : List Nat :=
  (List.range r.channels.length).filter fun i =>
    match r.channels.get? i with
    | some ch => typeSelected meg eeg eog stim ch.chType && !(r.bads.contains ch.name)
    | none => false

/-- Look a path up in the model file system (an association list). -/
def lookupFile (files : List (String × Raw)) (p : String) : Option Raw :=
  match files with
  | [] => none
  | (q, r) :: rest => if q = p then some r else lookupFile rest p

/-- Write a path in the model file system, replacing an existing entry. -/
def setFile (files : List (String × Raw)) (p : String) (r : Raw) :
    List (String × Raw) :=
  match files with
  | [] => [(p, r)]
  | (q, s) :: rest => if q = p then (q, r) :: rest else (q, s) :: setFile rest p r

/-- The data rows of the channels at the given indices. -/
def rowsAt (r : Raw) (picks : List Nat) : List (List Int) :=
  picks.map fun i => ((r.channels.get? i).map Channel.data).getD []

/-- Pointwise sum of two rows, padding the shorter one. -/
def addRows : List Int → List Int → List Int
  | [], ys => ys
  | x :: xs, [] => x :: xs
  | x :: xs, y :: ys => (x + y) :: addRows xs ys

/-- Linear combination of rows with the given coefficients. -/
def combineRows : List Int → List (List Int) → List Int
  | [], _ => []
  | _, [] => []
  | c :: cs, row :: rest => addRows (row.map fun x => c * x) (combineRows cs rest)

/-- Matrix product: each coefficient row of `m` combines the `rows`. -/
def matMul (m rows : List (List Int)) : List (List Int) :=
  m.map fun c => combineRows c rows

/-- Map with the element index, starting at `n`. -/
def mapIdx' (f : Nat → α → α) : Nat → List α → List α
  | _, [] => []
  | i, a :: as => f i a :: mapIdx' f (i + 1) as

/-- Index of the first occurrence of `x` in `l`. -/
def listPos (l : List Nat) (x : Nat) : Option Nat :=
  match l with
  | [] => none
  | a :: as => if a = x then some 0 else (listPos as x).map (· + 1)

/-- Zero out exactly the rows whose index is in `ex`; keep the others. -/
def zeroRows (ex : List Nat) (rows : List (List Int)) : List (List Int) :=
  mapIdx' (fun i row => if ex.contains i then row.map (fun _ => 0) else row) 0 rows

/-- Modelled from the spec: `ica.apply` — transform the picked channels
to component space with the unmixing coefficients, zero out exactly the
excluded components, project back with the mixing coefficients, and
write the reconstruction into the picked channels; every other channel
is left untouched. -/
def applyIca (f : Fit) (ex : List Nat) (picks : List Nat) (r : Raw) : Raw :=
  let sources := matMul f.unmixing (rowsAt r picks)
  let recon := matMul f.mixing (zeroRows ex sources)
  { r with
    channels := mapIdx' (fun i ch =>
      match listPos picks i with
      | some k => { ch with data := recon.getD k ch.data }
      | none => ch) 0 r.channels }

/-- Modelled from the spec: the in-place bandpass filter applied channel
by channel — a picked channel (index counted from `i`) is replaced by the
output of the bandpass kernel, an unpicked channel is kept as it is; the
first kernel failure aborts. -/
def filterChannels (lib : Lib) (l h : QLit) (picks : List Nat) :
    Nat → List Channel → Except String (List Channel)
  | _, [] => .ok []
  | i, ch :: rest =>
    match (if picks.contains i then
            (lib.bandpass l h ch.data).map fun d => { ch with data := d }
          else .ok ch) with
    | .error e => .error e
    | .ok ch' =>
      match filterChannels lib l h picks (i + 1) rest with
      | .error e => .error e
      | .ok rest' => .ok (ch' :: rest')

/-- Modelled from the spec: `Raw.filter` applied to a channel subset. -/
def filterOp (lib : Lib) (l h : QLit) (picks : List Nat) (r : Raw) :
    Except String Raw :=
  match filterChannels lib l h picks 0 r.channels with
  | .error e => .error e
  | .ok chs => .ok { r with channels := chs }

/-- Interpreter state: a heap of recording objects (`store`), the
notebook variables as addresses into the heap or plain values, and the
model file system. -/
structure St where
  store : List Raw
  data_raw : Option Nat
  data_filtered : Option Nat
  data_ica : Option Nat
  picks : Option (List Nat)
  ica : Option Ica
  eog_epochs : Option (List (List Int))
  eog_inds : Option (List Nat)
  scores : Option (List Int)
  files : List (String × Raw)
  deriving DecidableEq, Repr

/-- Dereference an optional heap address. -/
def getRaw (st : St) (a : Option Nat) : Option Raw :=
  a.bind fun i => st.store.get? i

/-- One library call of the notebook, with its literal arguments as they
appear in the notebook cells.  The four Booleans of the pick-bearing
calls are the `meg`, `eeg`, `eog`, `stim` flags of the `pick_types` call
computed just before the library call in the same cell. -/
inductive Call where
  | readRaw (path : String) (preload : Bool)
  | setBads (bs : List String)
  | plot (target : String)
  | filterCall (l h : QLit) (mp ep op sp : Bool) (fmethod : String)
  | icaInit (n_components : Nat) (fmethod : String) (random_state : Option Nat)
  | icaFit (mp ep op sp : Bool) (decim : Nat)
  | createEog (ch_name : String) (mp ep op sp : Bool) (rejectEeg : QLit)
  | findBads
  | excludeExtend
  | copyFiltered
  | icaApply
  | save (path : String) (overwrite : Bool)
  deriving DecidableEq, Repr

/-- Execute one call: each case follows the library contract the spec
describes for that call, over the interpreter state. -/
def execCall (lib : Lib) (entropy : Nat) (st : St) : Call → Except String St
  | .readRaw path _ =>
    match lookupFile st.files path with
    | some r => .ok { st with store := st.store ++ [r], data_raw := some st.store.length }
    | none => .error "FileNotFoundError"
  | .setBads bs =>
    match st.data_raw with
    | some a =>
      match st.store.get? a with
      | some r => .ok { st with store := st.store.set a { r with bads := bs } }
      | none => .error "KeyError"
    | none => .error "NameError"
  | .plot _ => .ok st
  | .filterCall l h mp ep op sp _ =>
    match st.data_raw with
    | some a =>
      match st.store.get? a with
      | some r =>
        match filterOp lib l h (pick_types r mp ep op sp) r with
        | .ok r' => .ok { st with store := st.store.set a r',
                                  data_filtered := some a,
                                  picks := some (pick_types r mp ep op sp) }
        | .error e => .error e
      | none => .error "KeyError"
    | none => .error "NameError"
  | .icaInit n m rs =>
    .ok { st with ica := some { n_components := n, method := m,
                                random_state := rs, fitted := none, exclude := [] } }
  | .icaFit mp ep op sp decim =>
    match st.ica with
    | some ic =>
      match getRaw st st.data_filtered with
      | some r =>
        match lib.fastica ic.n_components (ic.random_state.getD entropy) decim
                (rowsAt r (pick_types r mp ep op sp)) with
        | .ok f => .ok { st with
            ica := some { ic with fitted := some (f, pick_types r mp ep op sp) },
            picks := some (pick_types r mp ep op sp) }
        | .error e => .error e
      | none => .error "NameError"
    | none => .error "NameError"
  | .createEog ch mp ep op sp rej =>
    match getRaw st st.data_filtered with
    | some r =>
      match lib.create_eog_epochs ch rej (rowsAt r (pick_types r mp ep op sp)) with
      | .ok e => .ok { st with eog_epochs := some e,
                               picks := some (pick_types r mp ep op sp) }
      | .error e => .error e
    | none => .error "NameError"
  | .findBads =>
    match st.ica with
    | some ic =>
      match ic.fitted with
      | some (f, _) =>
        match st.eog_epochs with
        | some ep =>
          match lib.find_bads_eog f ep with
          | .ok (inds, sc) => .ok { st with eog_inds := some inds, scores := some sc }
          | .error e => .error e
        | none => .error "NameError"
      | none => .error "RuntimeError"
    | none => .error "NameError"
  | .excludeExtend =>
    match st.ica with
    | some ic =>
      match st.eog_inds with
      | some inds => .ok { st with ica := some { ic with exclude := ic.exclude ++ inds } }
      | none => .error "NameError"
    | none => .error "NameError"
  | .copyFiltered =>
    match getRaw st st.data_filtered with
    | some r => .ok { st with store := st.store ++ [r], data_ica := some st.store.length }
    | none => .error "NameError"
  | .icaApply =>
    match st.ica with
    | some ic =>
      match ic.fitted with
      | some (f, pk) =>
        match st.data_ica with
        | some b =>
          match st.store.get? b with
          | some r => .ok { st with store := st.store.set b (applyIca f ic.exclude pk r) }
          | none => .error "KeyError"
        | none => .error "NameError"
      | none => .error "RuntimeError"
    | none => .error "NameError"
  | .save path ow =>
    match getRaw st st.data_ica with
    | some r =>
      if ow || (lookupFile st.files path).isNone then
        .ok { st with files := setFile st.files path r }
      else .error "FileExistsError"
    | none => .error "NameError"

/-- Run a list of calls in order; the first error aborts the run and is
returned unchanged (the notebook has no construct that catches). -/
def run (lib : Lib) (entropy : Nat) : St → List Call → Except String St
  | st, [] => .ok st
  | st, c :: cs =>
    match execCall lib entropy st c with
    | .ok st' => run lib entropy st' cs
    | .error e => .error e

/-- Input path literal of the notebook. -/
def raw_fn : String := "sub-01_task-audvis_raw.fif"

/-- Output path literal of the notebook. -/
def ica_fn : String := "sub-01_task-audvis_preproc_raw.fif"

/-- The notebook cells, in source order, as library calls with their
literal arguments; visualization-only calls are recorded as `plot`. -/
def notebookCalls : List Call :=
  [ .readRaw raw_fn true,
    .setBads ["EEG 053"],
    .plot "layout",
    .plot "data_raw",
    .plot "montage_3d",
    .plot "montage_topomap",
    .filterCall ⟨5, 10⟩ ⟨40, 1⟩ false true false false "fir",
    .icaInit 25 "fastica" (some 1312),
    .icaFit false true false false 3,
    .plot "components",
    .plot "properties_data_filtered",
    .createEog "EOG 061" false true true false ⟨2, 10000⟩,
    .plot "eog_average",
    .findBads,
    .plot "scores",
    .plot "sources",
    .plot "properties_eog_epochs",
    .plot "overlay",
    .excludeExtend,
    .copyFiltered,
    .icaApply,
    .save ica_fn true,
    .plot "data_ica" ]

/-- The empty starting state over a given file system. -/
def initSt (files : List (String × Raw)) : St :=
  { store := [], data_raw := none, data_filtered := none, data_ica := none,
    picks := none, ica := none, eog_epochs := none, eog_inds := none,
    scores := none, files := files }

/-- Run the whole notebook on a file system, with an entropy source that
the interpreter consults only when a decomposition is fitted without a
fixed seed. -/
def runNotebook (lib : Lib) (entropy : Nat) (files : List (String × Raw)) :
    Except String St :=
  run lib entropy (initSt files) notebookCalls

/-- Derived closed form of the whole notebook run: the five fallible
library calls in sequence, with all intermediate state resolved.  Note
that the entropy source does not occur: the seed passed to the
decomposition is the literal 1312. -/
def pipelineDenote (lib : Lib) (fs : List (String × Raw)) : Except String St :=
  match lookupFile fs raw_fn with
  | none => .error "FileNotFoundError"
  | some r0 =>
    match filterOp lib ⟨5, 10⟩ ⟨40, 1⟩
        (pick_types { channels := r0.channels, bads := ["EEG 053"] } false true false false)
        { channels := r0.channels, bads := ["EEG 053"] } with
    | .error e => .error e
    | .ok rf =>
      match lib.fastica 25 1312 3 (rowsAt rf (pick_types rf false true false false)) with
      | .error e => .error e
      | .ok f =>
        match lib.create_eog_epochs "EOG 061" ⟨2, 10000⟩
            (rowsAt rf (pick_types rf false true true false)) with
        | .error e => .error e
        | .ok ep =>
          match lib.find_bads_eog f ep with
          | .error e => .error e
          | .ok (inds, sc) =>
            .ok { store := [rf, applyIca f inds (pick_types rf false true false false) rf],
                  data_raw := some 0, data_filtered := some 0, data_ica := some 1,
                  picks := some (pick_types rf false true true false),
                  ica := some { n_components := 25, method := "fastica",
                                random_state := some 1312,
                                fitted := some (f, pick_types rf false true false false),
                                exclude := inds },
                  eog_epochs := some ep, eog_inds := some inds, scores := some sc,
                  files := setFile fs ica_fn
                    (applyIca f inds (pick_types rf false true false false) rf) }

/-- Does the file name carry the `.fif` suffix of the Neuromag format? -/
def fifSuffix (s : String) : Bool := s.data.reverse.take 4 == ".fif".data.reverse

/-- A concrete instantiation of the library kernels for witnesses: the
bandpass keeps the samples, the decomposition is the one-by-one identity,
epoch extraction returns no windows and detection flags component 0. -/
def libOk : Lib :=
  { bandpass := fun _ _ d => .ok d,
    fastica := fun _ _ _ _ => .ok ⟨[[1]], [[1]]⟩,
    create_eog_epochs := fun _ _ _ => .ok [],
    find_bads_eog := fun _ _ => .ok ([0], [1]) }

/-- A small concrete recording for witnesses: one good EEG channel, the
bad channel `EEG 053`, the reference EOG channel and a stimulus
channel. -/
def sampleRaw : Raw :=
  { channels :=
      [ ⟨"EEG 001", .eeg, [1, 2]⟩,
        ⟨"EEG 053", .eeg, [3, 4]⟩,
        ⟨"EOG 061", .eog, [5, 6]⟩,
        ⟨"STI 014", .stim, [7, 8]⟩ ],
    bads := [] }

/-- Witness file system: the input path holds the sample recording. -/
def fs0 : List (String × Raw) := [(raw_fn, sampleRaw)]

/-- The sample recording after the bad channel is marked (and after the
identity bandpass of `libOk`, which leaves the samples unchanged). -/
def r1W : Raw := { channels := sampleRaw.channels, bads := ["EEG 053"] }

/-- The sample recording after component removal with `libOk`: channel 0
is the only fitted channel and the only flagged component, so its samples
are zeroed; every other channel keeps its samples. -/
def r3W : Raw :=
  { channels :=
      [ ⟨"EEG 001", .eeg, [0, 0]⟩,
        ⟨"EEG 053", .eeg, [3, 4]⟩,
        ⟨"EOG 061", .eog, [5, 6]⟩,
        ⟨"STI 014", .stim, [7, 8]⟩ ],
    bads := ["EEG 053"] }

/-- The fitted ICA object of the witness run. -/
def icW : Ica :=
  { n_components := 25, method := "fastica", random_state := some 1312,
    fitted := some (⟨[[1]], [[1]]⟩, [0]), exclude := [0] }

/-- The final interpreter state of the witness run. -/
def stW : St :=
  { store := [r1W, r3W],
    data_raw := some 0, data_filtered := some 0, data_ica := some 1,
    picks := some [0, 2],
    ica := some icW,
    eog_epochs := some [], eog_inds := some [0], scores := some [1],
    files := [(raw_fn, sampleRaw), (ica_fn, r3W)] }

/-- The witness state after one further `exclude.extend` call. -/
def stW2 : St :=
  { stW with ica := some { icW with exclude := [0, 0] } }


theorem run_cons_ok (lib : Lib) (entropy : Nat) {st st' : St} {c : Call} (cs : List Call)
    (h : execCall lib entropy st c = .ok st') :
    run lib entropy st (c :: cs) = run lib entropy st' cs := by
  simp [run, h]

theorem run_cons_err (lib : Lib) (entropy : Nat) {st : St} {c : Call} (cs : List Call)
    {e : String} (h : execCall lib entropy st c = .error e) :
    run lib entropy st (c :: cs) = .error e := by
  simp [run, h]

theorem run_append (lib : Lib) (entropy : Nat) (l1 l2 : List Call) (st : St) :
    run lib entropy st (l1 ++ l2) =
      match run lib entropy st l1 with
      | .ok st' => run lib entropy st' l2
      | .error err => .error err := by
  induction l1 generalizing st with
  | nil => rfl
  | cons c cs ih =>
    dsimp only [List.cons_append, run]
    cases execCall lib entropy st c with
    | ok st' => exact ih st'
    | error err => rfl

/-- The interpreter agrees with the closed pipeline form on every
library instantiation, entropy source and file system. -/
theorem runNotebook_eq (lib : Lib) (entropy : Nat) (fs : List (String × Raw)) :
    runNotebook lib entropy fs = pipelineDenote lib fs := by
  unfold runNotebook pipelineDenote notebookCalls
  cases hr0 : lookupFile fs raw_fn with
  | none =>
    refine run_cons_err lib entropy _ ?_
    dsimp only [execCall, initSt]
    rw [hr0]
  | some r0 =>
    dsimp only
    rw [run_cons_ok lib entropy _
      (show execCall lib entropy (initSt fs) (.readRaw raw_fn true) =
          .ok { store := [r0], data_raw := some 0, data_filtered := none, data_ica := none,
                picks := none, ica := none, eog_epochs := none, eog_inds := none,
                scores := none, files := fs } by
        dsimp only [execCall, initSt]; rw [hr0]; rfl)]
    show run lib entropy
        { store := [{ channels := r0.channels, bads := ["EEG 053"] }], data_raw := some 0,
          data_filtered := none, data_ica := none, picks := none, ica := none,
          eog_epochs := none, eog_inds := none, scores := none, files := fs }
        (Call.filterCall ⟨5, 10⟩ ⟨40, 1⟩ false true false false "fir" ::
          [Call.icaInit 25 "fastica" (some 1312),
           Call.icaFit false true false false 3,
           Call.plot "components",
           Call.plot "properties_data_filtered",
           Call.createEog "EOG 061" false true true false ⟨2, 10000⟩,
           Call.plot "eog_average",
           Call.findBads,
           Call.plot "scores",
           Call.plot "sources",
           Call.plot "properties_eog_epochs",
           Call.plot "overlay",
           Call.excludeExtend,
           Call.copyFiltered,
           Call.icaApply,
           Call.save ica_fn true,
           Call.plot "data_ica"]) = _
    cases hf : filterOp lib ⟨5, 10⟩ ⟨40, 1⟩
        (pick_types { channels := r0.channels, bads := ["EEG 053"] } false true false false)
        { channels := r0.channels, bads := ["EEG 053"] } with
    | error e =>
      rw [run_cons_err lib entropy _
        (show execCall lib entropy
            { store := [{ channels := r0.channels, bads := ["EEG 053"] }], data_raw := some 0,
              data_filtered := none, data_ica := none, picks := none, ica := none,
              eog_epochs := none, eog_inds := none, scores := none, files := fs }
            (.filterCall ⟨5, 10⟩ ⟨40, 1⟩ false true false false "fir") = .error e by
          dsimp only [execCall, List.get?]; rw [hf])]
    | ok rf =>
      dsimp only
      rw [run_cons_ok lib entropy _
        (show execCall lib entropy
            { store := [{ channels := r0.channels, bads := ["EEG 053"] }], data_raw := some 0,
              data_filtered := none, data_ica := none, picks := none, ica := none,
              eog_epochs := none, eog_inds := none, scores := none, files := fs }
            (.filterCall ⟨5, 10⟩ ⟨40, 1⟩ false true false false "fir") =
            .ok { store := [rf], data_raw := some 0, data_filtered := some 0, data_ica := none,
                  picks := some (pick_types { channels := r0.channels, bads := ["EEG 053"] }
                    false true false false),
                  ica := none, eog_epochs := none, eog_inds := none,
                  scores := none, files := fs } by
          dsimp only [execCall, List.get?]; rw [hf]; rfl)]
      show run lib entropy
          { store := [rf], data_raw := some 0, data_filtered := some 0, data_ica := none,
            picks := some (pick_types { channels := r0.channels, bads := ["EEG 053"] }
              false true false false),
            ica := some { n_components := 25, method := "fastica", random_state := some 1312,
                          fitted := none, exclude := [] },
            eog_epochs := none, eog_inds := none, scores := none, files := fs }
          (Call.icaFit false true false false 3 ::
            [Call.plot "components",
             Call.plot "properties_data_filtered",
             Call.createEog "EOG 061" false true true false ⟨2, 10000⟩,
             Call.plot "eog_average",
             Call.findBads,
             Call.plot "scores",
             Call.plot "sources",
             Call.plot "properties_eog_epochs",
             Call.plot "overlay",
             Call.excludeExtend,
             Call.copyFiltered,
             Call.icaApply,
             Call.save ica_fn true,
             Call.plot "data_ica"]) = _
      cases hfit : lib.fastica 25 1312 3 (rowsAt rf (pick_types rf false true false false)) with
      | error e =>
        rw [run_cons_err lib entropy _
          (show execCall lib entropy
              { store := [rf], data_raw := some 0, data_filtered := some 0, data_ica := none,
                picks := some (pick_types { channels := r0.channels, bads := ["EEG 053"] }
                  false true false false),
                ica := some { n_components := 25, method := "fastica", random_state := some 1312,
                              fitted := none, exclude := [] },
                eog_epochs := none, eog_inds := none, scores := none, files := fs }
              (.icaFit false true false false 3) = .error e by
            dsimp only [execCall, getRaw, Option.bind, Option.getD, List.get?]; rw [hfit])]
      | ok f =>
        dsimp only
        rw [run_cons_ok lib entropy _
          (show execCall lib entropy
              { store := [rf], data_raw := some 0, data_filtered := some 0, data_ica := none,
                picks := some (pick_types { channels := r0.channels, bads := ["EEG 053"] }
                  false true false false),
                ica := some { n_components := 25, method := "fastica", random_state := some 1312,
                              fitted := none, exclude := [] },
                eog_epochs := none, eog_inds := none, scores := none, files := fs }
              (.icaFit false true false false 3) =
              .ok { store := [rf], data_raw := some 0, data_filtered := some 0, data_ica := none,
                    picks := some (pick_types rf false true false false),
                    ica := some { n_components := 25, method := "fastica",
                                  random_state := some 1312,
                                  fitted := some (f, pick_types rf false true false false),
                                  exclude := [] },
                    eog_epochs := none, eog_inds := none, scores := none, files := fs } by
            dsimp only [execCall, getRaw, Option.bind, Option.getD, List.get?]; rw [hfit])]
        show run lib entropy
            { store := [rf], data_raw := some 0, data_filtered := some 0, data_ica := none,
              picks := some (pick_types rf false true false false),
              ica := some { n_components := 25, method := "fastica", random_state := some 1312,
                            fitted := some (f, pick_types rf false true false false),
                            exclude := [] },
              eog_epochs := none, eog_inds := none, scores := none, files := fs }
            (Call.createEog "EOG 061" false true true false ⟨2, 10000⟩ ::
              [Call.plot "eog_average",
               Call.findBads,
               Call.plot "scores",
               Call.plot "sources",
               Call.plot "properties_eog_epochs",
               Call.plot "overlay",
               Call.excludeExtend,
               Call.copyFiltered,
               Call.icaApply,
               Call.save ica_fn true,
               Call.plot "data_ica"]) = _
        cases hep : lib.create_eog_epochs "EOG 061" ⟨2, 10000⟩
            (rowsAt rf (pick_types rf false true true false)) with
        | error e =>
          rw [run_cons_err lib entropy _
            (show execCall lib entropy
                { store := [rf], data_raw := some 0, data_filtered := some 0, data_ica := none,
                  picks := some (pick_types rf false true false false),
                  ica := some { n_components := 25, method := "fastica",
                                random_state := some 1312,
                                fitted := some (f, pick_types rf false true false false),
                                exclude := [] },
                  eog_epochs := none, eog_inds := none, scores := none, files := fs }
                (.createEog "EOG 061" false true true false ⟨2, 10000⟩) = .error e by
              dsimp only [execCall, getRaw, Option.bind, List.get?]; rw [hep])]
        | ok ep =>
          dsimp only
          rw [run_cons_ok lib entropy _
            (show execCall lib entropy
                { store := [rf], data_raw := some 0, data_filtered := some 0, data_ica := none,
                  picks := some (pick_types rf false true false false),
                  ica := some { n_components := 25, method := "fastica",
                                random_state := some 1312,
                                fitted := some (f, pick_types rf false true false false),
                                exclude := [] },
                  eog_epochs := none, eog_inds := none, scores := none, files := fs }
                (.createEog "EOG 061" false true true false ⟨2, 10000⟩) =
                .ok { store := [rf], data_raw := some 0, data_filtered := some 0,
                      data_ica := none,
                      picks := some (pick_types rf false true true false),
                      ica := some { n_components := 25, method := "fastica",
                                    random_state := some 1312,
                                    fitted := some (f, pick_types rf false true false false),
                                    exclude := [] },
                      eog_epochs := some ep, eog_inds := none, scores := none,
                      files := fs } by
              dsimp only [execCall, getRaw, Option.bind, List.get?]; rw [hep])]
          show run lib entropy
              { store := [rf], data_raw := some 0, data_filtered := some 0, data_ica := none,
                picks := some (pick_types rf false true true false),
                ica := some { n_components := 25, method := "fastica",
                              random_state := some 1312,
                              fitted := some (f, pick_types rf false true false false),
                              exclude := [] },
                eog_epochs := some ep, eog_inds := none, scores := none, files := fs }
              (Call.findBads ::
                [Call.plot "scores",
                 Call.plot "sources",
                 Call.plot "properties_eog_epochs",
                 Call.plot "overlay",
                 Call.excludeExtend,
                 Call.copyFiltered,
                 Call.icaApply,
                 Call.save ica_fn true,
                 Call.plot "data_ica"]) = _
          cases hb : lib.find_bads_eog f ep with
          | error e =>
            rw [run_cons_err lib entropy _
              (show execCall lib entropy
                  { store := [rf], data_raw := some 0, data_filtered := some 0,
                    data_ica := none,
                    picks := some (pick_types rf false true true false),
                    ica := some { n_components := 25, method := "fastica",
                                  random_state := some 1312,
                                  fitted := some (f, pick_types rf false true false false),
                                  exclude := [] },
                    eog_epochs := some ep, eog_inds := none, scores := none, files := fs }
                  .findBads = .error e by
                dsimp only [execCall]; rw [hb])]
          | ok p =>
            obtain ⟨inds, sc⟩ := p
            dsimp only
            rw [run_cons_ok lib entropy _
              (show execCall lib entropy
                  { store := [rf], data_raw := some 0, data_filtered := some 0,
                    data_ica := none,
                    picks := some (pick_types rf false true true false),
                    ica := some { n_components := 25, method := "fastica",
                                  random_state := some 1312,
                                  fitted := some (f, pick_types rf false true false false),
                                  exclude := [] },
                    eog_epochs := some ep, eog_inds := none, scores := none, files := fs }
                  .findBads =
                  .ok { store := [rf], data_raw := some 0, data_filtered := some 0,
                        data_ica := none,
                        picks := some (pick_types rf false true true false),
                        ica := some { n_components := 25, method := "fastica",
                                      random_state := some 1312,
                                      fitted := some (f, pick_types rf false true false false),
                                      exclude := [] },
                        eog_epochs := some ep, eog_inds := some inds, scores := some sc,
                        files := fs } by
                dsimp only [execCall]; rw [hb])]
            rfl


/-- Invert a successful closed-form run into the five library results
and the explicit final state. -/
theorem pipelineDenote_ok (lib : Lib) (fs : List (String × Raw)) (st : St)
    (h : pipelineDenote lib fs = .ok st) :
    ∃ r0 rf f ep inds sc,
      lookupFile fs raw_fn = some r0 ∧
      filterOp lib ⟨5, 10⟩ ⟨40, 1⟩
        (pick_types { channels := r0.channels, bads := ["EEG 053"] } false true false false)
        { channels := r0.channels, bads := ["EEG 053"] } = .ok rf ∧
      lib.fastica 25 1312 3 (rowsAt rf (pick_types rf false true false false)) = .ok f ∧
      lib.create_eog_epochs "EOG 061" ⟨2, 10000⟩
        (rowsAt rf (pick_types rf false true true false)) = .ok ep ∧
      lib.find_bads_eog f ep = .ok (inds, sc) ∧
      st = { store := [rf, applyIca f inds (pick_types rf false true false false) rf],
             data_raw := some 0, data_filtered := some 0, data_ica := some 1,
             picks := some (pick_types rf false true true false),
             ica := some { n_components := 25, method := "fastica",
                           random_state := some 1312,
                           fitted := some (f, pick_types rf false true false false),
                           exclude := inds },
             eog_epochs := some ep, eog_inds := some inds, scores := some sc,
             files := setFile fs ica_fn
               (applyIca f inds (pick_types rf false true false false) rf) } := by
  unfold pipelineDenote at h
  cases hr0 : lookupFile fs raw_fn with
  | none => rw [hr0] at h; cases h
  | some r0 =>
    rw [hr0] at h
    dsimp only at h
    cases hf : filterOp lib ⟨5, 10⟩ ⟨40, 1⟩
        (pick_types { channels := r0.channels, bads := ["EEG 053"] } false true false false)
        { channels := r0.channels, bads := ["EEG 053"] } with
    | error e => rw [hf] at h; cases h
    | ok rf =>
      rw [hf] at h
      dsimp only at h
      cases hfit : lib.fastica 25 1312 3 (rowsAt rf (pick_types rf false true false false)) with
      | error e => rw [hfit] at h; cases h
      | ok f =>
        rw [hfit] at h
        dsimp only at h
        cases hep : lib.create_eog_epochs "EOG 061" ⟨2, 10000⟩
            (rowsAt rf (pick_types rf false true true false)) with
        | error e => rw [hep] at h; cases h
        | ok ep =>
          rw [hep] at h
          dsimp only at h
          cases hb : lib.find_bads_eog f ep with
          | error e => rw [hb] at h; cases h
          | ok p =>
            obtain ⟨inds, sc⟩ := p
            rw [hb] at h
            dsimp only at h
            injection h with h
            exact ⟨r0, rf, f, ep, inds, sc, rfl, hf, hfit, hep, hb, h.symm⟩

theorem get?_mapIdx' (f : Nat → α → α) (l : List α) :
    ∀ (n i : Nat), (mapIdx' f n l).get? i = (l.get? i).map (f (n + i)) := by
  induction l with
  | nil => intro n i; rfl
  | cons a as ih =>
    intro n i
    cases i with
    | zero => simp [mapIdx']
    | succ j =>
      dsimp only [mapIdx', List.get?]
      rw [ih (n + 1) j]
      have hadd : n + 1 + j = n + (j + 1) := by omega
      rw [hadd]

theorem listPos_eq_none (l : List Nat) (x : Nat) (hx : x ∉ l) : listPos l x = none := by
  induction l with
  | nil => rfl
  | cons a as ih =>
    unfold listPos
    have hax : ¬ (a = x) := by
      intro h
      subst h
      exact hx (List.mem_cons_self a as)
    rw [if_neg hax, ih fun hmem => hx (List.mem_cons_of_mem a hmem)]
    rfl

/-- Component removal leaves every channel outside the fitted picks
untouched. -/
theorem applyIca_frame (f : Fit) (ex picks : List Nat) (r : Raw) (i : Nat)
    (hi : i ∉ picks) :
    (applyIca f ex picks r).channels.get? i = r.channels.get? i := by
  unfold applyIca
  rw [get?_mapIdx']
  cases hch : r.channels.get? i with
  | none => rfl
  | some ch =>
    dsimp only [Option.map]
    rw [Nat.zero_add, listPos_eq_none picks i hi]

theorem filterChannels_get? (lib : Lib) (l h : QLit) (picks : List Nat) :
    ∀ (cs : List Channel) (n : Nat) (cs' : List Channel),
      filterChannels lib l h picks n cs = .ok cs' →
      ∀ i : Nat, (n + i) ∉ picks → cs'.get? i = cs.get? i := by
  intro cs
  induction cs with
  | nil =>
    intro n cs' hc i hi
    unfold filterChannels at hc
    injection hc with hc
    rw [← hc]
  | cons ch rest ih =>
    intro n cs' hc i hi
    unfold filterChannels at hc
    cases h1 : (if picks.contains n then
        (lib.bandpass l h ch.data).map fun d => { ch with data := d }
      else .ok ch) with
    | error e => rw [h1] at hc; cases hc
    | ok ch' =>
      rw [h1] at hc
      dsimp only at hc
      cases h2 : filterChannels lib l h picks (n + 1) rest with
      | error e => rw [h2] at hc; cases hc
      | ok rest' =>
        rw [h2] at hc
        dsimp only at hc
        injection hc with hc
        subst hc
        cases i with
        | zero =>
          have hn : n ∉ picks := by
            intro hmem
            exact hi (by simpa using hmem)
          rw [if_neg fun hc => hn (by simpa using hc)] at h1
          injection h1 with h1
          subst h1
          rfl
        | succ j =>
          dsimp only [List.get?]
          refine ih (n + 1) rest' h2 j ?_
          have hadd : n + 1 + j = n + (j + 1) := by omega
          rw [hadd]
          exact hi

/-- The in-place filter call keeps the bad-channel list and leaves every
channel outside the picks untouched. -/
theorem filterOp_ok (lib : Lib) (l h : QLit) (picks : List Nat) (r r' : Raw)
    (hf : filterOp lib l h picks r = .ok r') :
    r'.bads = r.bads ∧ ∀ i, i ∉ picks → r'.channels.get? i = r.channels.get? i := by
  unfold filterOp at hf
  cases hc : filterChannels lib l h picks 0 r.channels with
  | error e => rw [hc] at hf; cases hf
  | ok chs =>
    rw [hc] at hf
    injection hf with hf
    subst hf
    refine ⟨rfl, fun i hi => ?_⟩
    exact filterChannels_get? lib l h picks r.channels 0 chs hc i (by simpa using hi)

/-- Membership in a pick set: the channel kind must be selected and the
channel name must not be marked bad. -/
theorem mem_pick_types_iff (r : Raw) (mp ep opk sp : Bool) (i : Nat) (ch : Channel)
    (hch : r.channels.get? i = some ch) :
    i ∈ pick_types r mp ep opk sp ↔
      (typeSelected mp ep opk sp ch.chType = true ∧ ch.name ∉ r.bads) := by
  unfold pick_types
  rw [List.mem_filter, List.mem_range]
  constructor
  · rintro ⟨-, hp⟩
    rw [hch] at hp
    dsimp only at hp
    rw [Bool.and_eq_true] at hp
    refine ⟨hp.1, fun hmem => ?_⟩
    have hct : r.bads.contains ch.name = true := by simpa using hmem
    rw [hct] at hp
    simp at hp
  · rintro ⟨ht, hnb⟩
    have hlt : i < r.channels.length := by
      by_contra hge
      rw [List.get?_eq_none.mpr (by omega)] at hch
      cases hch
    refine ⟨hlt, ?_⟩
    rw [hch]
    dsimp only
    rw [Bool.and_eq_true, ht]
    have hcf : r.bads.contains ch.name = false := by
      cases hcn : r.bads.contains ch.name with
      | false => rfl
      | true => exact absurd (by simpa using hcn) hnb
    rw [hcf]
    exact ⟨rfl, rfl⟩

/-- A channel whose name is marked bad is never picked. -/
theorem not_mem_pick_types_of_bad (r : Raw) (mp ep opk sp : Bool) (i : Nat)
    (ch : Channel) (hch : r.channels.get? i = some ch) (hbad : ch.name ∈ r.bads) :
    i ∉ pick_types r mp ep opk sp := by
  intro hmem
  exact ((mem_pick_types_iff r mp ep opk sp i ch hch).mp hmem).2 hbad

theorem lookupFile_setFile_self (fs : List (String × Raw)) (p : String) (r : Raw) :
    lookupFile (setFile fs p r) p = some r := by
  induction fs with
  | nil => simp [setFile, lookupFile]
  | cons entry rest ih =>
    obtain ⟨q, s⟩ := entry
    unfold setFile
    by_cases hq : q = p
    · rw [if_pos hq]
      unfold lookupFile
      rw [if_pos hq]
    · rw [if_neg hq]
      unfold lookupFile
      rw [if_neg hq]
      exact ih

theorem lookupFile_setFile_ne (fs : List (String × Raw)) (p q : String) (r : Raw)
    (hpq : q ≠ p) : lookupFile (setFile fs p r) q = lookupFile fs q := by
  induction fs with
  | nil =>
    unfold setFile lookupFile
    rw [if_neg fun hc => hpq (Eq.symm hc)]
    rfl
  | cons entry rest ih =>
    obtain ⟨q', s⟩ := entry
    unfold setFile
    by_cases hq : q' = p
    · rw [if_pos hq]
      unfold lookupFile
      by_cases hq2 : q' = q
      · exact absurd (hq2 ▸ hq) fun hc => hpq hc
      · rw [if_neg hq2, if_neg hq2]
    · rw [if_neg hq]
      unfold lookupFile
      by_cases hq2 : q' = q
      · rw [if_pos hq2, if_pos hq2]
      · rw [if_neg hq2, if_neg hq2]
        exact ih

/-- Rows listed in the exclusion set are zeroed out. -/
theorem zeroRows_of_mem (ex : List Nat) (rows : List (List Int)) (i : Nat)
    (hi : i ∈ ex) :
    (zeroRows ex rows).get? i = (rows.get? i).map (List.map fun _ => (0 : Int)) := by
  unfold zeroRows
  rw [get?_mapIdx']
  cases rows.get? i with
  | none => rfl
  | some row =>
    dsimp only [Option.map]
    rw [Nat.zero_add]
    have hct : ex.contains i = true := by simpa using hi
    rw [hct]
    rfl

/-- Rows outside the exclusion set are retained unchanged. -/
theorem zeroRows_of_not_mem (ex : List Nat) (rows : List (List Int)) (i : Nat)
    (hi : i ∉ ex) : (zeroRows ex rows).get? i = rows.get? i := by
  unfold zeroRows
  rw [get?_mapIdx']
  cases rows.get? i with
  | none => rfl
  | some row =>
    dsimp only [Option.map]
    rw [Nat.zero_add]
    have hcf : ex.contains i = false := by
      cases hcn : ex.contains i with
      | false => rfl
      | true => exact absurd (by simpa using hcn) hi
    rw [hcf]
    rfl

/-- Claim C1: the notebook performs the seven pipeline steps of the spec
exactly once each and in the stated order — load (`read_raw`), mark bad
channels, bandpass filter, fit the 25-component decomposition (its
construction directly preceding the fit), detect artifact components
(epoch extraction from the reference EOG channel followed by the
correlation scan), mark and remove them (extend the exclusion list, copy,
apply), and persist and plot the result.  Counts state that no step is
repeated or skipped; the index chain states that none is reordered. -/
theorem pipeline_steps_in_order :
    notebookCalls.count (.readRaw raw_fn true) = 1 ∧
    notebookCalls.count (.setBads ["EEG 053"]) = 1 ∧
    notebookCalls.count (.filterCall ⟨5, 10⟩ ⟨40, 1⟩ false true false false "fir") = 1 ∧
    notebookCalls.count (.icaInit 25 "fastica" (some 1312)) = 1 ∧
    notebookCalls.count (.icaFit false true false false 3) = 1 ∧
    notebookCalls.count (.createEog "EOG 061" false true true false ⟨2, 10000⟩) = 1 ∧
    notebookCalls.count .findBads = 1 ∧
    notebookCalls.count .excludeExtend = 1 ∧
    notebookCalls.count .copyFiltered = 1 ∧
    notebookCalls.count .icaApply = 1 ∧
    notebookCalls.count (.save ica_fn true) = 1 ∧
    notebookCalls.count (.plot "data_ica") = 1 ∧
    notebookCalls.indexOf (.readRaw raw_fn true) <
      notebookCalls.indexOf (.setBads ["EEG 053"]) ∧
    notebookCalls.indexOf (.setBads ["EEG 053"]) <
      notebookCalls.indexOf (.filterCall ⟨5, 10⟩ ⟨40, 1⟩ false true false false "fir") ∧
    notebookCalls.indexOf (.filterCall ⟨5, 10⟩ ⟨40, 1⟩ false true false false "fir") <
      notebookCalls.indexOf (.icaInit 25 "fastica" (some 1312)) ∧
    notebookCalls.indexOf (.icaInit 25 "fastica" (some 1312)) <
      notebookCalls.indexOf (.icaFit false true false false 3) ∧
    notebookCalls.indexOf (.icaFit false true false false 3) <
      notebookCalls.indexOf (.createEog "EOG 061" false true true false ⟨2, 10000⟩) ∧
    notebookCalls.indexOf (.createEog "EOG 061" false true true false ⟨2, 10000⟩) <
      notebookCalls.indexOf .findBads ∧
    notebookCalls.indexOf .findBads < notebookCalls.indexOf .excludeExtend ∧
    notebookCalls.indexOf .excludeExtend < notebookCalls.indexOf .copyFiltered ∧
    notebookCalls.indexOf .copyFiltered < notebookCalls.indexOf .icaApply ∧
    notebookCalls.indexOf .icaApply < notebookCalls.indexOf (.save ica_fn true) ∧
    notebookCalls.indexOf (.save ica_fn true) < notebookCalls.indexOf (.plot "data_ica") := by
  decide

/-- Claim C2: every tuning parameter is a hard-coded literal of the
trace `notebookCalls` (a closed constant — no value is read from a
command line, network or configuration file), and the unique call of
each kind carries exactly the literal the spec lists: filter edges
`0.5` (= 5/10) and `40` Hz with the FIR method, `n_components = 25`
with `method = fastica` and `random_state = 1312`, `decim = 3`,
`ch_name = EOG 061` with rejection threshold `2e-4` (= 2/10000), and
the output path saved with `overwrite = True`. -/
theorem pipeline_parameters_hard_coded :
    (notebookCalls.filter fun c => match c with
      | .filterCall _ _ _ _ _ _ _ => true
      | _ => false) = [.filterCall ⟨5, 10⟩ ⟨40, 1⟩ false true false false "fir"] ∧
    (notebookCalls.filter fun c => match c with
      | .icaInit _ _ _ => true
      | _ => false) = [.icaInit 25 "fastica" (some 1312)] ∧
    (notebookCalls.filter fun c => match c with
      | .icaFit _ _ _ _ _ => true
      | _ => false) = [.icaFit false true false false 3] ∧
    (notebookCalls.filter fun c => match c with
      | .createEog _ _ _ _ _ _ => true
      | _ => false) = [.createEog "EOG 061" false true true false ⟨2, 10000⟩] ∧
    (notebookCalls.filter fun c => match c with
      | .save _ _ => true
      | _ => false) = [.save ica_fn true] := by
  decide

/-- Claim C7: the notebook has no error handling of its own — if every
call before some call succeeds and that call raises, the whole run
surfaces exactly that error and no later step runs (the run result is
the error itself, so no state transition after the failing call is ever
taken). -/
theorem errors_propagate_unchanged (lib : Lib) (entropy : Nat)
    (fs : List (String × Raw)) (pre : List Call) (c : Call) (post : List Call)
    (st : St) (err : String)
    (hsplit : notebookCalls = pre ++ c :: post)
    (hpre : run lib entropy (initSt fs) pre = .ok st)
    (hfail : execCall lib entropy st c = .error err) :
    runNotebook lib entropy fs = .error err := by
  unfold runNotebook
  rw [hsplit, run_append, hpre]
  exact run_cons_err lib entropy post hfail

/-- Claim C7 witness: on an empty file system the very first call fails
with the file-not-found error and the whole run surfaces it. -/
theorem errors_propagate_unchanged_w :
    runNotebook libOk 0 [] = .error "FileNotFoundError" :=
  errors_propagate_unchanged libOk 0 [] [] (.readRaw raw_fn true)
    notebookCalls.tail (initSt []) "FileNotFoundError" rfl rfl rfl

/-- Claim C8: the pipeline is deterministic — the trace constructs the
decomposition with the fixed seed `random_state = 1312`, so the run
never consults the ambient entropy source, and two runs over the same
library and input file system produce identical results (in particular
the same fitted decomposition, the same detected component indices and
the same saved output). -/
theorem pipeline_deterministic (lib : Lib) (fs : List (String × Raw)) (e1 e2 : Nat) :
    runNotebook lib e1 fs = runNotebook lib e2 fs := by
  rw [runNotebook_eq, runNotebook_eq]

/-- Claim C3: the filtering call mutates the loaded recording in place —
after a successful run, `data_filtered` and `data_raw` hold the same heap
address, and the single object behind it carries exactly the output of
the filter call — whereas the destructive component removal was applied
only to the copy behind `data_ica`, a distinct address: even after
`ica.apply` ran, the object behind `data_filtered` still equals the
filter output, unchanged. -/
theorem filter_in_place_apply_on_copy (lib : Lib) (entropy : Nat)
    (fs : List (String × Raw)) (st : St)
    (h : runNotebook lib entropy fs = .ok st) :
    st.data_filtered = st.data_raw ∧
    st.data_filtered = some 0 ∧ st.data_ica = some 1 ∧
    st.data_ica ≠ st.data_filtered ∧
    ∃ r0 rf, lookupFile fs raw_fn = some r0 ∧
      filterOp lib ⟨5, 10⟩ ⟨40, 1⟩
        (pick_types { channels := r0.channels, bads := ["EEG 053"] } false true false false)
        { channels := r0.channels, bads := ["EEG 053"] } = .ok rf ∧
      getRaw st st.data_raw = some rf ∧ getRaw st st.data_filtered = some rf := by
  rw [runNotebook_eq] at h
  obtain ⟨r0, rf, f, ep, inds, sc, hr0, hf, -, -, -, hst⟩ := pipelineDenote_ok lib fs st h
  subst hst
  exact ⟨rfl, rfl, rfl, by simp, r0, rf, hr0, hf, rfl, rfl⟩

/-- Claim C3 witness: in the concrete run, `data_filtered` aliases
`data_raw` and still holds the filter output after `apply`. -/
theorem filter_in_place_apply_on_copy_w :
    stW.data_filtered = stW.data_raw ∧ getRaw stW stW.data_filtered = some r1W := by
  have h := filter_in_place_apply_on_copy libOk 0 fs0 stW rfl
  refine ⟨h.1, ?_⟩
  obtain ⟨r0, rf, hr0, hf, -, hget⟩ := h.2.2.2.2
  have hr0' : r0 = sampleRaw := by
    have hs := hr0.symm.trans (rfl : lookupFile fs0 raw_fn = some sampleRaw)
    injection hs with hs
  subst hr0'
  have hrf : rf = r1W := by
    have hs := hf.symm.trans
      (rfl : filterOp libOk ⟨5, 10⟩ ⟨40, 1⟩
        (pick_types { channels := sampleRaw.channels, bads := ["EEG 053"] }
          false true false false)
        { channels := sampleRaw.channels, bads := ["EEG 053"] } = .ok r1W)
    injection hs with hs
  subst hrf
  exact hget

/-- Claim C10: a successful run writes exactly one path — the output
file: the input path (distinct from the output path) still holds its
original content, every path other than the output path is unchanged,
and the output path now holds a recording. -/
theorem writes_only_output_path (lib : Lib) (entropy : Nat)
    (fs : List (String × Raw)) (st : St)
    (h : runNotebook lib entropy fs = .ok st) :
    raw_fn ≠ ica_fn ∧
    lookupFile st.files raw_fn = lookupFile fs raw_fn ∧
    (∀ p, p ≠ ica_fn → lookupFile st.files p = lookupFile fs p) ∧
    ∃ out, lookupFile st.files ica_fn = some out := by
  rw [runNotebook_eq] at h
  obtain ⟨r0, rf, f, ep, inds, sc, -, -, -, -, -, hst⟩ := pipelineDenote_ok lib fs st h
  subst hst
  refine ⟨by decide, ?_, ?_, ?_⟩
  · exact lookupFile_setFile_ne fs ica_fn raw_fn _ (by decide)
  · intro p hp
    exact lookupFile_setFile_ne fs ica_fn p _ hp
  · exact ⟨_, lookupFile_setFile_self fs ica_fn _⟩

/-- Claim C10 witness: in the concrete run the input entry is unchanged
and the output path is populated. -/
theorem writes_only_output_path_w :
    lookupFile stW.files raw_fn = lookupFile fs0 raw_fn ∧
    (lookupFile stW.files ica_fn).isSome = true := by
  have h := writes_only_output_path libOk 0 fs0 stW rfl
  refine ⟨h.2.1, ?_⟩
  obtain ⟨out, ho⟩ := h.2.2.2
  rw [ho]
  rfl

/-- Claim C4: extending the exclusion list changes only the fitted
transform object — the heap of recordings, the file system and all
variable bindings are untouched, and the ICA object changes only in its
`exclude` field, which is extended by the detected indices.  Zeroing
during reconstruction hits exactly the rows listed in the exclusion set
and retains every other row.  In a successful run, the exclusion list at
the apply call is exactly the detected component list `eog_inds`. -/
theorem mark_then_remove_components :
    (∀ (lib : Lib) (entropy : Nat) (st st' : St),
      execCall lib entropy st .excludeExtend = .ok st' →
      st'.store = st.store ∧ st'.files = st.files ∧ st'.data_raw = st.data_raw ∧
      st'.data_filtered = st.data_filtered ∧ st'.data_ica = st.data_ica ∧
      ∃ ic inds, st.ica = some ic ∧ st.eog_inds = some inds ∧
        st'.ica = some { n_components := ic.n_components, method := ic.method,
                         random_state := ic.random_state, fitted := ic.fitted,
                         exclude := ic.exclude ++ inds }) ∧
    (∀ (ex : List Nat) (rows : List (List Int)) (i : Nat),
      (i ∈ ex →
        (zeroRows ex rows).get? i = (rows.get? i).map (List.map fun _ => (0 : Int))) ∧
      (i ∉ ex → (zeroRows ex rows).get? i = rows.get? i)) ∧
    (∀ (lib : Lib) (entropy : Nat) (fs : List (String × Raw)) (st : St),
      runNotebook lib entropy fs = .ok st →
      ∃ ic, st.ica = some ic ∧ st.eog_inds = some ic.exclude) := by
  refine ⟨?_, ?_, ?_⟩
  · intro lib entropy st st' h
    dsimp only [execCall] at h
    cases hic : st.ica with
    | none => rw [hic] at h; cases h
    | some ic =>
      rw [hic] at h
      dsimp only at h
      cases hinds : st.eog_inds with
      | none => rw [hinds] at h; cases h
      | some inds =>
        rw [hinds] at h
        dsimp only at h
        injection h with h
        subst h
        exact ⟨rfl, rfl, rfl, rfl, rfl, ic, inds, rfl, rfl, rfl⟩
  · intro ex rows i
    exact ⟨fun hi => zeroRows_of_mem ex rows i hi,
           fun hi => zeroRows_of_not_mem ex rows i hi⟩
  · intro lib entropy fs st h
    rw [runNotebook_eq] at h
    obtain ⟨r0, rf, f, ep, inds, sc, -, -, -, -, -, hst⟩ := pipelineDenote_ok lib fs st h
    subst hst
    exact ⟨_, rfl, rfl⟩

/-- Claim C4 witness: extending the exclusion list on the concrete state
leaves the heap and files unchanged; zeroing row 0 of a one-row matrix
zeroes it; in the concrete run the exclusion list equals `eog_inds`. -/
theorem mark_then_remove_components_w :
    stW2.store = stW.store ∧ stW2.files = stW.files ∧
    (zeroRows [0] [[1, 2]]).get? 0 = some [0, 0] ∧
    stW.eog_inds = some [0] := by
  have h1 := mark_then_remove_components.1 libOk 0 stW stW2 rfl
  have h2 := (mark_then_remove_components.2.1 [0] [[1, 2]] 0).1 (by decide)
  have h3 := mark_then_remove_components.2.2 libOk 0 fs0 stW rfl
  refine ⟨h1.1, h1.2.1, ?_, ?_⟩
  · rw [h2]; rfl
  · obtain ⟨ic, hic, hinds⟩ := h3
    have hs := (rfl : stW.ica = some icW).symm.trans hic
    injection hs with hs
    rw [hinds, ← hs]
    rfl

/-- Claim C5: the filter call of the trace carries exactly the pick
flags `meg=False, eeg=True, eog=False, stim=False`; a channel index is
in that pick set exactly when its channel is EEG and its name is not
marked bad; and a successful filter call keeps the bad-channel list and
leaves every channel outside the pick set bit-for-bit unchanged. -/
theorem filter_touches_only_picked (lib : Lib) :
    (notebookCalls.filter fun c => match c with
      | .filterCall _ _ _ _ _ _ _ => true
      | _ => false) = [.filterCall ⟨5, 10⟩ ⟨40, 1⟩ false true false false "fir"] ∧
    (∀ (r : Raw) (i : Nat) (ch : Channel), r.channels.get? i = some ch →
      (i ∈ pick_types r false true false false ↔
        (ch.chType = .eeg ∧ ch.name ∉ r.bads))) ∧
    (∀ (l h : QLit) (picks : List Nat) (r r' : Raw),
      filterOp lib l h picks r = .ok r' →
      r'.bads = r.bads ∧ ∀ i, i ∉ picks → r'.channels.get? i = r.channels.get? i) := by
  refine ⟨by decide, ?_, ?_⟩
  · intro r i ch hch
    rw [mem_pick_types_iff r false true false false i ch hch]
    constructor
    · rintro ⟨ht, hnb⟩
      refine ⟨?_, hnb⟩
      cases hty : ch.chType with
      | eeg => rfl
      | meg => rw [hty] at ht; exact absurd ht (by decide)
      | eog => rw [hty] at ht; exact absurd ht (by decide)
      | stim => rw [hty] at ht; exact absurd ht (by decide)
    · rintro ⟨hty, hnb⟩
      exact ⟨by rw [hty]; rfl, hnb⟩
  · intro l h picks r r' hf
    exact filterOp_ok lib l h picks r r' hf

/-- Claim C5 witness: in the sample recording with the bad channel
marked, the bad channel index is not picked; a concrete filter call over
picks `[0]` leaves channel 1 unchanged. -/
theorem filter_touches_only_picked_w :
    1 ∉ pick_types r1W false true false false ∧
    filterOp libOk ⟨5, 10⟩ ⟨40, 1⟩ [0] sampleRaw = .ok sampleRaw ∧
    sampleRaw.channels.get? 1 = sampleRaw.channels.get? 1 := by
  have hiff := (filter_touches_only_picked libOk).2.1 r1W 1
    ⟨"EEG 053", ChType.eeg, [3, 4]⟩ rfl
  have hframe := (filter_touches_only_picked libOk).2.2 ⟨5, 10⟩ ⟨40, 1⟩ [0]
    sampleRaw sampleRaw rfl
  refine ⟨?_, rfl, hframe.2 1 (by decide)⟩
  intro hmem
  exact (hiff.mp hmem).2 (by decide)

/-- Claim C6: the persistence step writes the output path of the same
`.fif` format as the input, with `overwrite = True`, so the call
succeeds (returns a state, raises nothing) even when the path is already
present in the file system, and afterwards the path holds the saved
recording. -/
theorem save_overwrites_existing (lib : Lib) (entropy : Nat) (st : St) (r : Raw)
    (hr : getRaw st st.data_ica = some r)
    (hex : (lookupFile st.files ica_fn).isSome = true) :
    execCall lib entropy st (.save ica_fn true) =
      .ok { st with files := setFile st.files ica_fn r } ∧
    lookupFile (setFile st.files ica_fn r) ica_fn = some r ∧
    Call.save ica_fn true ∈ notebookCalls ∧
    fifSuffix raw_fn = true ∧ fifSuffix ica_fn = true := by
  refine ⟨?_, lookupFile_setFile_self st.files ica_fn r, by decide, by decide, by decide⟩
  dsimp only [execCall]
  rw [hr]
  rfl

/-- Claim C6 witness: saving over the concrete final state, where the
output file already exists, succeeds and replaces the entry. -/
theorem save_overwrites_existing_w :
    execCall libOk 0 stW (.save ica_fn true) =
      .ok { stW with files := setFile stW.files ica_fn r3W } ∧
    lookupFile (setFile stW.files ica_fn r3W) ica_fn = some r3W := by
  have h := save_overwrites_existing libOk 0 stW r3W rfl rfl
  exact ⟨h.1, h.2.1⟩

/-- Claim C9: a channel named `EEG 053` in the input is excluded from
every pick set (picking always skips channels whose name is in the
bad-channel list), in particular from the channels the decomposition was
fitted on and from the channels picked for the EOG epochs, and its
samples reach the output file untouched: the output recording holds the
very same channel record at the same index. -/
theorem bad_channel_never_transformed (lib : Lib) (entropy : Nat)
    (fs : List (String × Raw)) (st : St) (r0 : Raw) (i : Nat) (ch : Channel)
    (h : runNotebook lib entropy fs = .ok st)
    (hr0 : lookupFile fs raw_fn = some r0)
    (hch : r0.channels.get? i = some ch)
    (hname : ch.name = "EEG 053") :
    (∀ (r : Raw) (mp ep2 opk sp : Bool) (j : Nat) (cj : Channel),
      r.channels.get? j = some cj → cj.name ∈ r.bads →
      j ∉ pick_types r mp ep2 opk sp) ∧
    (∃ ic f pk, st.ica = some ic ∧ ic.fitted = some (f, pk) ∧ i ∉ pk) ∧
    (∃ pk, st.picks = some pk ∧ i ∉ pk) ∧
    (∃ out, lookupFile st.files ica_fn = some out ∧
      out.channels.get? i = some ch) := by
  rw [runNotebook_eq] at h
  obtain ⟨r0', rf, f, ep, inds, sc, hr0', hf, -, -, -, hst⟩ := pipelineDenote_ok lib fs st h
  have hr00 : r0' = r0 := by
    have hs := hr0'.symm.trans hr0
    injection hs with hs
  rw [← hr00] at hch
  subst hst
  have hch1 : ({ channels := r0'.channels, bads := ["EEG 053"] } : Raw).channels.get? i
      = some ch := hch
  have hbad1 : ch.name ∈ ({ channels := r0'.channels, bads := ["EEG 053"] } : Raw).bads := by
    rw [hname]
    exact List.mem_cons_self _ _
  have hnp1 : i ∉ pick_types { channels := r0'.channels, bads := ["EEG 053"] }
      false true false false :=
    not_mem_pick_types_of_bad _ false true false false i ch hch1 hbad1
  obtain ⟨hbads, hframe⟩ := filterOp_ok lib ⟨5, 10⟩ ⟨40, 1⟩ _ _ rf hf
  have hchf : rf.channels.get? i = some ch := by
    rw [hframe i hnp1]
    exact hch1
  have hbadf : ch.name ∈ rf.bads := by
    rw [hbads]
    exact hbad1
  have hnpF : i ∉ pick_types rf false true false false :=
    not_mem_pick_types_of_bad rf false true false false i ch hchf hbadf
  have hnpE : i ∉ pick_types rf false true true false :=
    not_mem_pick_types_of_bad rf false true true false i ch hchf hbadf
  refine ⟨?_, ?_, ?_, ?_⟩
  · intro r mp ep2 opk sp j cj hcj hb
    exact not_mem_pick_types_of_bad r mp ep2 opk sp j cj hcj hb
  · exact ⟨_, f, _, rfl, rfl, hnpF⟩
  · exact ⟨_, rfl, hnpE⟩
  · refine ⟨applyIca f inds (pick_types rf false true false false) rf,
      lookupFile_setFile_self fs ica_fn _, ?_⟩
    rw [applyIca_frame f inds _ rf i hnpF]
    exact hchf

/-- Claim C9 witness: in the concrete run, the output file holds the
`EEG 053` channel with its original samples at its original index. -/
theorem bad_channel_never_transformed_w :
    lookupFile stW.files ica_fn = some r3W ∧
    r3W.channels.get? 1 = some ⟨"EEG 053", ChType.eeg, [3, 4]⟩ := by
  have h := bad_channel_never_transformed libOk 0 fs0 stW sampleRaw 1
    ⟨"EEG 053", ChType.eeg, [3, 4]⟩ rfl rfl rfl rfl
  obtain ⟨out, ho, hc⟩ := h.2.2.2
  have hs := ho.symm.trans (rfl : lookupFile stW.files ica_fn = some r3W)
  injection hs with hs
  subst hs
  exact ⟨ho, hc⟩

end NB
